import Mathlib

/-!
# Verification of the SLA bill checker engine

A shallow embedding of the computation engine of the SLA-BILL-CHEKCER
repository (`sla_logic.py` and the `generate` handler of `app.py`).

Modelling conventions:
* Python floats are modelled as rationals (`ℚ`); Python's unbounded ints as `ℤ`/`ℕ`.
* `math.ceil` on a float is modelled by `ceilQ`, Python's `round(x, n)` by
  `roundQ`-based `round2`/`round4` (round-half-up on exact rationals; the
  source rounds IEEE doubles, whose ties are not exactly representable, so
  no claim below depends on tie behaviour).
* Python strings are modelled as `String`/`List Char`; the cell-level text
  transforms (`strip`, `lower`, regex substitutions) are implemented as
  executable char-list functions mirroring the regexes used by the source.
* `pandas` NaN cells are modelled with `Option`; a dataframe column keyed by
  route id is modelled as an association list with last-wins lookup, which is
  how a Python `dict` built from repeated keys behaves.
-/

namespace SlaBillChecker

/-! ## Numeric core: floor, ceil and Python-style rounding on `ℚ` -/

/-- Floor of a rational, as an executable integer division on the reduced
numerator and denominator (agrees with `Int.floor`). -/
def floorQ (q : ℚ) : ℤ := q.num / (q.den : ℤ)

/-- Model of Python `math.ceil` on a rational. -/
def ceilQ (q : ℚ) : ℤ := -floorQ (-q)

/-- Model of rounding a rational to the nearest integer (round half up),
standing in for Python `round(x)` on the engine's currency values. -/
def roundQ (q : ℚ) : ℤ := floorQ (q + 1/2)

/-- Model of Python `round(x, 2)` used for currency amounts. -/
def round2 (q : ℚ) : ℚ := (roundQ (q * 100) : ℚ) / 100

/-- Model of Python `round(x, 4)` used for per-route SLA charges. -/
def round4 (q : ℚ) : ℚ := (roundQ (q * 10000) : ℚ) / 10000

/-! ## Char-level text utilities

Executable models of the Python string transforms used by the engine:
`str.strip`, `str.lower`, substring tests and the regexes of
`norm_route_name`. -/

/-- Whitespace in the sense of Python `str.strip` / regex `\s` (the ASCII
whitespace plus the non-breaking space handled by `norm_route_name`). -/
def isPyWs (c : Char) : Bool :=
  c.isWhitespace || c = '\x0b' || c = '\x0c' || c = '\u00A0'

/-- Model of Python `str.strip()` on a char list. -/
def stripChars (cs : List Char) : List Char :=
  ((cs.dropWhile isPyWs).reverse.dropWhile isPyWs).reverse

/-- Model of Python `str.lower()` for the ASCII letters (the only case the
engine's header keywords exercise). -/
def lowerChar (c : Char) : Char :=
  if 'A' ≤ c ∧ c ≤ 'Z' then Char.ofNat (c.toNat + 32) else c

def lowerChars (cs : List Char) : List Char := cs.map lowerChar

/-- `startsWithChars n h` holds when `n` is an initial segment of `h`. -/
def startsWithChars : List Char → List Char → Bool
  | [], _ => true
  | _ :: _, [] => false
  | n :: ns, h :: hs => n == h && startsWithChars ns hs

/-- Substring test, modelling Python's `needle in hay`. -/
def hasSubChars (needle : List Char) : List Char → Bool
  | [] => startsWithChars needle []
  | c :: rest => startsWithChars needle (c :: rest) || hasSubChars needle rest

/-! ## Value parsers (`sla_logic.py` helpers) -/

/-- En/em dash unification step of `norm_route_name`. -/
def normDashChar (c : Char) : Char := if c = '–' ∨ c = '—' then '-' else c

/-- Replacement of the non-breaking space by a plain space in `norm_route_name`. -/
def nbspToSpace (c : Char) : Char := if c = '\u00A0' then ' ' else c

/-- Collapses every whitespace run to a single space: the `\s+ → " "`
substitution of `norm_route_name`.  The flag records whether the previous
character already emitted a space. -/
def squeezeWsAux : List Char → Bool → List Char
  | [], _ => []
  | c :: rest, prevWs =>
    if isPyWs c then
      if prevWs then squeezeWsAux rest true else ' ' :: squeezeWsAux rest true
    else c :: squeezeWsAux rest false

def squeezeWs (cs : List Char) : List Char := squeezeWsAux cs false

/-- The `\s*-\s* → "-"` substitution of `norm_route_name`, applied after
whitespace runs have been collapsed to single spaces. -/
def squeezeHyphen : List Char → List Char
  | [] => []
  | ' ' :: '-' :: ' ' :: rest => '-' :: squeezeHyphen rest
  | ' ' :: '-' :: rest => '-' :: squeezeHyphen rest
  | '-' :: ' ' :: rest => '-' :: squeezeHyphen rest
  | c :: rest => c :: squeezeHyphen rest

/-- Model of `norm_route_name`: strip, lower-case, unify non-breaking spaces
and dashes, collapse whitespace, tighten hyphens, strip again. -/
def norm_route_name (s : String) : String :=
  let t1 := lowerChars (stripChars s.data)
  let t2 := t1.map nbspToSpace
  let t3 := t2.map normDashChar
  let t4 := squeezeWs t3
  let t5 := squeezeHyphen t4
  String.mk (stripChars t5)

/-- Drops one trailing `".0"`: the `str.replace(r"\.0$", "")` canonicalization
applied to route-id cells. -/
def dropDotZeroSuffix (cs : List Char) : List Char :=
  match cs.reverse with
  | '0' :: '.' :: rest => rest.reverse
  | _ => cs

/-- Canonical route id: `astype(str).str.strip().str.replace(r"\.0$", "")`. -/
def canonRouteId (s : String) : String :=
  String.mk (dropDotZeroSuffix (stripChars s.data))

def digitVal (c : Char) : ℕ := c.toNat - 48

def digitsVal (ds : List Char) : ℕ := ds.foldl (fun a c => 10 * a + digitVal c) 0

/-- Model of the colon pattern `^\d{1,4}:\d{2}(:\d{2})?$` of
`parse_duration_to_hours`: on success returns the (hours, minutes, seconds)
digit groups.  The pattern puts no upper bound on the minute or second
values beyond their being two digits. -/
def colonMatchChars (cs : List Char) : Option (ℕ × ℕ × ℕ) :=
  let hd := cs.takeWhile Char.isDigit
  let rest := cs.dropWhile Char.isDigit
  if hd.length = 0 ∨ 4 < hd.length then none
  else
    match rest with
    | ':' :: m1 :: m2 :: rest2 =>
      if m1.isDigit && m2.isDigit then
        match rest2 with
        | [] => some (digitsVal hd, digitsVal [m1, m2], 0)
        | ':' :: s1 :: s2 :: [] =>
          if s1.isDigit && s2.isDigit then
            some (digitsVal hd, digitsVal [m1, m2], digitsVal [s1, s2])
          else none
        | _ => none
      else none
    | _ => none

/-- Exponent part of a Python float literal. -/
def parseExpPart (cs : List Char) : Option ℤ :=
  match cs with
  | '+' :: ds => if ds ≠ [] ∧ ds.all Char.isDigit then some (digitsVal ds : ℤ) else none
  | '-' :: ds => if ds ≠ [] ∧ ds.all Char.isDigit then some (-(digitsVal ds : ℤ)) else none
  | ds => if ds ≠ [] ∧ ds.all Char.isDigit then some (digitsVal ds : ℤ) else none

/-- Unsigned decimal literal `\d+(\.\d*)?([eE][+-]?\d+)?` or `\.\d+...`,
as accepted by Python `float(...)` (special values such as `inf`/`nan` and
digit-group underscores are not modelled; no claim depends on them). -/
def parseUnsignedQ (cs : List Char) : Option ℚ :=
  let ip := cs.takeWhile Char.isDigit
  let rest := cs.dropWhile Char.isDigit
  match rest with
  | [] => if ip.length = 0 then none else some (digitsVal ip : ℚ)
  | '.' :: rest2 =>
    let fp := rest2.takeWhile Char.isDigit
    let rest3 := rest2.dropWhile Char.isDigit
    if ip.length = 0 ∧ fp.length = 0 then none
    else
      match rest3 with
      | [] => some ((digitsVal ip : ℚ) + (digitsVal fp : ℚ) / ((10 ^ fp.length : ℕ) : ℚ))
      | 'e' :: es =>
        (parseExpPart es).map
          (fun e => ((digitsVal ip : ℚ) + (digitsVal fp : ℚ) / ((10 ^ fp.length : ℕ) : ℚ)) * 10 ^ e)
      | 'E' :: es =>
        (parseExpPart es).map
          (fun e => ((digitsVal ip : ℚ) + (digitsVal fp : ℚ) / ((10 ^ fp.length : ℕ) : ℚ)) * 10 ^ e)
      | _ => none
  | 'e' :: es =>
    if ip.length = 0 then none
    else (parseExpPart es).map (fun e => (digitsVal ip : ℚ) * 10 ^ e)
  | 'E' :: es =>
    if ip.length = 0 then none
    else (parseExpPart es).map (fun e => (digitsVal ip : ℚ) * 10 ^ e)
  | _ => none

/-- Model of Python `float(s)` on an already-stripped char list. -/
def parseDecimalQ (cs : List Char) : Option ℚ :=
  match cs with
  | '+' :: rest => parseUnsignedQ rest
  | '-' :: rest => (parseUnsignedQ rest).map Neg.neg
  | _ => parseUnsignedQ cs

/-- Model of `parse_duration_to_hours`: numeric hours or `HH:MM` / `HH:MM:SS`
text.  A NaN or `Timedelta` input cell is outside this model (the NaN path
returns NaN, which the caller segregates exactly like `none` here). -/
def parse_duration_to_hours (s : String) : Option ℚ :=
  match stripChars s.data with
  | [] => none
  | cs =>
    match colonMatchChars cs with
    | some (h, m, sec) => some ((h : ℚ) + (m : ℚ) / 60 + (sec : ℚ) / 3600)
    | none => parseDecimalQ cs

/-! ## Penalty engine (`uptime_deduction_pct`, `mttr_penalty_non_cumulative`) -/

/-- Model of `uptime_deduction_pct`; `none` stands for a NaN uptime cell. -/
def uptime_deduction_pct : Option ℚ → ℕ
  | none => 0
  | some u =>
    if 99 ≤ u then 0
    else if 98 ≤ u then 10
    else if 97 ≤ u then 25
    else if 96 ≤ u then 50
    else if 95 ≤ u then 75
    else 100

/-- Slab amount for the already rounded-up whole-hour duration `h`
(the body of `mttr_penalty_non_cumulative` after `h = ceil(duration)`;
`int(math.ceil(h - 6))` collapses to `h - 6` on integers). -/
def mttr_slab_amount (h : ℤ) : ℤ :=
  if h ≤ 4 then 0
  else if h ≤ 6 then 500
  else if h ≤ 24 then 500 + 100 * (h - 6)
  else if h ≤ 48 then 5000
  else 5000 + 500 * ceilQ (((h : ℚ) - 48) / 24)

/-- Slab label accompanying `mttr_slab_amount`. -/
def mttr_slab_label (h : ℤ) : String :=
  if h ≤ 4 then "≤4"
  else if h ≤ 6 then ">4–6"
  else if h ≤ 24 then ">6–24"
  else if h ≤ 48 then ">24–48"
  else ">48"

/-- Model of `mttr_penalty_non_cumulative` (the NaN guard of the source is
subsumed by the `d ≤ 0` guard: both yield `(0, "Invalid/Blank")`). -/
def mttr_penalty_non_cumulative (d : ℚ) : ℤ × String :=
  if d ≤ 0 then (0, "Invalid/Blank")
  else (mttr_slab_amount (ceilQ d), mttr_slab_label (ceilQ d))

/-- Header keyword test of `detect_fault_duration_column`:
`"fault" in s and "duration" in s` on the lower-cased header. -/
def header_is_fault_duration (c : String) : Bool :=
  hasSubChars "fault".data (lowerChars c.data) &&
    hasSubChars "duration".data (lowerChars c.data)

/-- Model of `detect_fault_duration_column`: first keyword-matching header,
else the 14th column by position, else the `ValueError`. -/
def detect_fault_duration_column (cols : List String) : Except String String :=
  match cols.find? header_is_fault_duration with
  | some c => .ok c
  | none =>
    if h : 14 ≤ cols.length then .ok (cols.get ⟨13, by omega⟩)
    else .error "Fault Duration column not found."

/-! ## Cap and higher-of steps of `process_sla` -/

/-- Result record of the 25% MTTR cap block of `process_sla`. -/
structure CapResult where
  total_basic_sla : ℚ
  mttr_cap25 : ℚ
  net_after_cap : ℚ
  cap_applied : String
  deriving Repr, DecidableEq

/-- The MTTR 25% cap block of `process_sla`: `sla_charges` is the
`SLA_Charges_Rs` column, `mttr_net` the uncapped net MTTR penalty total. -/
def mttr_cap_step (sla_charges : List ℚ) (mttr_net : ℚ) : CapResult :=
  let total := round2 sla_charges.sum
  let cap := round2 (total * (25 / 100))
  if cap < mttr_net then ⟨total, cap, cap, "YES"⟩
  else ⟨total, cap, round2 mttr_net, "NO"⟩

/-- `system_sla_penalty_net = round(mttr_net_after_cap + availability_penalty_net, 2)`. -/
def system_sla_penalty_net (net_after_cap availability_net : ℚ) : ℚ :=
  round2 (net_after_cap + availability_net)

/-- The higher-of rule of `process_sla`: returns the adopted penalty
`higher_of_penalty` and `sla_recovery_after_vendor`. -/
def higher_of_step (system_net field_unit vendor_deducted : ℚ) : ℚ × ℚ :=
  (max system_net field_unit,
    round2 (max (max system_net field_unit - vendor_deducted) 0))

/-! ## Route registry and fault resolution -/

/-- A data row of Format A (only the fields the registry uses). -/
structure ARow where
  route_id_cell : String
  route_name : String
  deriving Repr, DecidableEq

/-- A canonical registry route. -/
structure Route where
  id : String
  name : String
  name_norm : String
  deriving Repr, DecidableEq

/-- The canonical route list: id canonicalized, name kept raw, normalized
name added (`process_sla` lines building the `routes` frame). -/
def buildRoutes (rows : List ARow) : List Route :=
  rows.map (fun r => ⟨canonRouteId r.route_id_cell, r.route_name, norm_route_name r.route_name⟩)

/-- Lookup in a Python `dict` built from a pair list: later pairs overwrite
earlier ones, hence the reversed first-match search. -/
def dictLookup (ps : List (String × String)) (k : String) : Option String :=
  ps.reverse.lookup k

/-- The pair list underlying `id_to_name`. -/
def idToNamePairs (rows : List ARow) : List (String × String) :=
  (buildRoutes rows).map (fun r => (r.id, r.name))

/-- The pair list underlying `name_to_id`. -/
def nameToIdPairs (rows : List ARow) : List (String × String) :=
  (buildRoutes rows).map (fun r => (r.name_norm, r.id))

/-- The registry data the fault reconciler consults: the known route ids
(`route_ids_in_a`) and the `name_to_id` dictionary pairs. -/
structure Registry where
  route_ids : List String
  name_to_id : List (String × String)
  deriving Repr, DecidableEq

/-- A valid fault row of Format C after column extraction:
`route_id_raw` is the canonicalized id cell, `route_name_norm` the
normalized name, `duration_hrs` the parsed positive duration. -/
structure FaultRow where
  route_id_raw : String
  route_name_norm : String
  duration_hrs : ℚ
  deriving Repr, DecidableEq

/-- `Route_ID_Final`: id match first, then name match, then the raw id
(`.where(isin)` / `.map(name_to_id)` / `fillna` chain of `process_sla`). -/
def resolveRouteId (reg : Registry) (f : FaultRow) : String :=
  let byId : Option String :=
    if f.route_id_raw ∈ reg.route_ids then some f.route_id_raw else none
  let byName : Option String := dictLookup reg.name_to_id f.route_name_norm
  ((byId.orElse (fun _ => byName))).getD f.route_id_raw

/-- The `"Route Missing in A"` export flag. -/
def route_missing_in_A (reg : Registry) (rid : String) : String :=
  if rid ∈ reg.route_ids then "NO" else "YES"

/-- The rows aggregated under key `rid` by the
`groupby("Route_ID_Final")` aggregations. -/
def downtimeGroup (reg : Registry) (fs : List FaultRow) (rid : String) : List FaultRow :=
  fs.filter (fun g => resolveRouteId reg g == rid)

/-! ## The `generate` handler of `app.py` -/

/-- Model of the `generate` click handler: upload guard, then the
rate-per-km guard, and only then the engine run.  `run_engine` stands for
everything from the temp-file writes onwards, in particular all dataset
reads; it is a parameter so that theorems can state that the guards fire
without it ever being consulted. -/
def generate_handler {α β : Type} (annex_a annex_c : Option α) (rate_per_km : ℚ)
    (run_engine : α → α → ℚ → β) : Except String β :=
  match annex_a, annex_c with
  | some a, some c =>
    if rate_per_km ≤ 0 then .error "Rate per KM must be greater than 0."
    else .ok (run_engine a c rate_per_km)
  | _, _ => .error "Please upload BOTH Annexure A and Annexure C."

/-- The two decimal digit characters of `m < 100` (test-data constructor for
the colon-pattern theorems). -/
def twoDigitChars (m : ℕ) : List Char :=
  [Char.ofNat (48 + m / 10), Char.ofNat (48 + m % 10)]

/-! ## Specification-side definitions (for refinement statements) -/

/-- The MTTR slab table exactly as the specification words it, as a function
of the whole-hour duration `h` (duration rounded up): `h ≤ 4` gives 0,
`5 ≤ h ≤ 6` gives 500, `7 ≤ h ≤ 24` gives `500 + 100×(h−6)`,
`25 ≤ h ≤ 48` gives 5000, `h > 48` gives `5000 + 500×ceil((h−48)/24)`;
only the final bucket's formula applies. -/
def mttrSlabSpecTable (h : ℤ) : ℤ :=
  if h ≤ 4 then 0
  else if 5 ≤ h ∧ h ≤ 6 then 500
  else if 7 ≤ h ∧ h ≤ 24 then 500 + 100 * (h - 6)
  else if 25 ≤ h ∧ h ≤ 48 then 5000
  else 5000 + 500 * ceilQ (((h : ℚ) - 48) / 24)

/-! ## Properties of the rounding models -/

theorem floorQ_eq (q : ℚ) : floorQ q = ⌊q⌋ := Rat.floor_def.symm

theorem ceilQ_eq (q : ℚ) : ceilQ q = ⌈q⌉ := by
  rw [ceilQ, floorQ_eq, Int.floor_neg, neg_neg]

theorem roundQ_eq (q : ℚ) : roundQ q = round q := by
  rw [roundQ, floorQ_eq, round_eq]

theorem ceilQ_mono {a b : ℚ} (h : a ≤ b) : ceilQ a ≤ ceilQ b := by
  rw [ceilQ_eq, ceilQ_eq]; exact Int.ceil_le_ceil h

theorem one_le_ceilQ {a : ℚ} (h : 0 < a) : 1 ≤ ceilQ a := by
  rw [ceilQ_eq]; exact Int.ceil_pos.mpr h

theorem roundQ_mono {a b : ℚ} (h : a ≤ b) : roundQ a ≤ roundQ b := by
  rw [roundQ_eq, roundQ_eq, round_eq, round_eq]
  exact Int.floor_le_floor (by linarith)

theorem roundQ_intCast (n : ℤ) : roundQ (n : ℚ) = n := by
  rw [roundQ_eq]; exact round_intCast n

theorem round2_mono {a b : ℚ} (h : a ≤ b) : round2 a ≤ round2 b := by
  unfold round2
  have := roundQ_mono (mul_le_mul_of_nonneg_right h (by norm_num : (0:ℚ) ≤ 100))
  exact div_le_div_of_nonneg_right (by exact_mod_cast this) (by norm_num)

theorem round2_nonneg {a : ℚ} (h : 0 ≤ a) : 0 ≤ round2 a := by
  have h0 : round2 0 = 0 := by
    unfold round2
    rw [show ((0:ℚ) * 100) = ((0:ℤ) : ℚ) by norm_num, roundQ_intCast]
    norm_num
  calc (0:ℚ) = round2 0 := h0.symm
    _ ≤ round2 a := round2_mono h

/-- `round2` is the identity on amounts that are whole multiples of `1/100`
(two-decimal currency values). -/
theorem round2_eq_self {a : ℚ} (h : ∃ n : ℤ, a = n / 100) : round2 a = a := by
  obtain ⟨n, rfl⟩ := h
  unfold round2
  rw [div_mul_cancel₀ _ (by norm_num : (100:ℚ) ≠ 0), roundQ_intCast]

theorem round2_idem (a : ℚ) : round2 (round2 a) = round2 a :=
  round2_eq_self ⟨roundQ (a * 100), rfl⟩

/-- `ceilQ` as a negated floor, in a shape the `norm_num` floor extension
can evaluate on concrete rationals. -/
theorem ceilQ_as_neg_floor (q : ℚ) : ceilQ q = -⌊-q⌋ := by
  rw [ceilQ, floorQ_eq]

/-- Rounding to two decimals overshoots by at most half a cent. -/
theorem round2_le_add_half_cent (a : ℚ) : round2 a ≤ a + 1/200 := by
  unfold round2
  have h := abs_sub_round (a * 100)
  rw [abs_sub_le_iff] at h
  have h2 : (round (a * 100) : ℚ) ≤ a * 100 + 1/2 := by linarith [h.2]
  rw [roundQ_eq]
  calc ((round (a * 100) : ℚ)) / 100 ≤ (a * 100 + 1/2) / 100 :=
        div_le_div_of_nonneg_right h2 (by norm_num)
    _ = a + 1/200 := by ring

/-! ## MTTR slab lemmas -/

/-- On a positive duration the penalty component is the slab amount at the
rounded-up whole-hour duration. -/
theorem mttr_val {d : ℚ} (hd : 0 < d) :
    (mttr_penalty_non_cumulative d).1 = mttr_slab_amount (ceilQ d) := by
  rw [mttr_penalty_non_cumulative, if_neg (not_le.mpr hd)]

theorem extraDaysMono {h1 h2 : ℤ} (h : h1 ≤ h2) :
    ceilQ (((h1 : ℚ) - 48) / 24) ≤ ceilQ (((h2 : ℚ) - 48) / 24) := by
  apply ceilQ_mono
  have hq : (h1 : ℚ) ≤ (h2 : ℚ) := by exact_mod_cast h
  exact div_le_div_of_nonneg_right (by linarith) (by norm_num)

theorem extraDaysPos {h : ℤ} (hh : 48 < h) : 1 ≤ ceilQ (((h : ℚ) - 48) / 24) := by
  apply one_le_ceilQ
  have hq : (48 : ℚ) < (h : ℚ) := by exact_mod_cast hh
  exact div_pos (by linarith) (by norm_num)

theorem slab_amount_nonneg (h : ℤ) : 0 ≤ mttr_slab_amount h := by
  unfold mttr_slab_amount
  split_ifs <;>
    first
      | linarith
      | linarith [extraDaysPos (show (48:ℤ) < h by omega)]

theorem slab_amount_mono {h1 h2 : ℤ} (h : h1 ≤ h2) :
    mttr_slab_amount h1 ≤ mttr_slab_amount h2 := by
  have hm := extraDaysMono h
  unfold mttr_slab_amount
  split_ifs <;>
    first
      | linarith
      | linarith [extraDaysPos (show (48:ℤ) < h2 by omega)]

/-! ## Claim theorems -/

/-- C1: for every fault duration `d > 0` the MTTR penalty equals the
non-cumulative slab table applied to `h = ceil(d)` (only the final bucket's
formula, never a sum over lower bands), and in particular
`mttrPenalty(4.0)=0`, `mttrPenalty(4.01)=500`, `mttrPenalty(24)=2300`,
`mttrPenalty(48)=5000`, `mttrPenalty(49)=5500`. -/
theorem mttr_penalty_matches_slab_table :
    (∀ d : ℚ, 0 < d →
        (mttr_penalty_non_cumulative d).1 = mttrSlabSpecTable (ceilQ d)) ∧
    (mttr_penalty_non_cumulative 4).1 = 0 ∧
    (mttr_penalty_non_cumulative (401/100)).1 = 500 ∧
    (mttr_penalty_non_cumulative 24).1 = 2300 ∧
    (mttr_penalty_non_cumulative 48).1 = 5000 ∧
    (mttr_penalty_non_cumulative 49).1 = 5500 := by
  refine ⟨?_, by decide, ?_, by decide, by decide, ?_⟩
  · intro d hd
    rw [mttr_val hd]
    have h1 : 1 ≤ ceilQ d := one_le_ceilQ hd
    unfold mttr_slab_amount mttrSlabSpecTable
    split_ifs <;> first | rfl | (exfalso; omega)
  · rw [mttr_val (by norm_num : (0:ℚ) < 401/100)]
    have hc : ceilQ (401/100 : ℚ) = 5 := by
      rw [ceilQ_as_neg_floor]; norm_num
    rw [hc]; decide
  · rw [mttr_val (by norm_num : (0:ℚ) < 49), show ceilQ (49:ℚ) = 49 from by decide]
    rw [mttr_slab_amount]
    norm_num [ceilQ_as_neg_floor]

/-- Witness for C1 at the concrete duration 5. -/
theorem mttr_penalty_matches_slab_table_witness :
    (mttr_penalty_non_cumulative 5).1 = mttrSlabSpecTable (ceilQ 5) :=
  mttr_penalty_matches_slab_table.1 5 (by decide)

/-- C6: the MTTR penalty is monotonically non-decreasing in the duration,
across all slab boundaries. -/
theorem mttr_penalty_monotone (d1 d2 : ℚ) (h : d1 ≤ d2) :
    (mttr_penalty_non_cumulative d1).1 ≤ (mttr_penalty_non_cumulative d2).1 := by
  unfold mttr_penalty_non_cumulative
  split_ifs with hd1 hd2 hd2
  · exact le_refl 0
  · exact slab_amount_nonneg _
  · exact absurd h (by push_neg at hd1 ⊢; linarith)
  · exact slab_amount_mono (ceilQ_mono h)

/-- Witness for C6 on the pair of durations 4 and 49. -/
theorem mttr_penalty_monotone_witness :
    (mttr_penalty_non_cumulative 4).1 ≤ (mttr_penalty_non_cumulative 49).1 :=
  mttr_penalty_monotone 4 49 (by decide)

/-- C3: the availability deduction percentage follows the uptime bands
`≥99→0, [98,99)→10, [97,98)→25, [96,97)→50, [95,96)→75, <95→100`
(in particular 75 at exactly 95.0), and is always one of
`{0, 10, 25, 50, 75, 100}`. -/
theorem uptime_deduction_bands (u : ℚ) :
    ((99 ≤ u → uptime_deduction_pct (some u) = 0) ∧
     (98 ≤ u ∧ u < 99 → uptime_deduction_pct (some u) = 10) ∧
     (97 ≤ u ∧ u < 98 → uptime_deduction_pct (some u) = 25) ∧
     (96 ≤ u ∧ u < 97 → uptime_deduction_pct (some u) = 50) ∧
     (95 ≤ u ∧ u < 96 → uptime_deduction_pct (some u) = 75) ∧
     (u < 95 → uptime_deduction_pct (some u) = 100)) ∧
    (uptime_deduction_pct (some u) = 0 ∨ uptime_deduction_pct (some u) = 10 ∨
     uptime_deduction_pct (some u) = 25 ∨ uptime_deduction_pct (some u) = 50 ∨
     uptime_deduction_pct (some u) = 75 ∨ uptime_deduction_pct (some u) = 100) := by
  simp only [uptime_deduction_pct]
  constructor
  · refine ⟨fun h => ?_, fun h => ?_, fun h => ?_, fun h => ?_, fun h => ?_, fun h => ?_⟩ <;>
      split_ifs <;> first | rfl | (exfalso; rcases h with ⟨h1, h2⟩ <;> linarith) |
        (exfalso; linarith)
  · split_ifs <;> simp

/-- Witness for C3 at exactly 95.0. -/
theorem uptime_deduction_bands_witness : uptime_deduction_pct (some 95) = 75 :=
  (uptime_deduction_bands 95).1.2.2.2.2.1 ⟨by decide, by decide⟩

/-- C7: a rate-per-km ≤ 0 makes the run fail with the fatal configuration
error, and the engine (hence any dataset read) is never consulted — the
result does not depend on `run_engine` at all. -/
theorem rate_guard_before_read {α β : Type} (a c : α) (rate : ℚ)
    (run1 run2 : α → α → ℚ → β) (hrate : rate ≤ 0) :
    generate_handler (some a) (some c) rate run1 =
      .error "Rate per KM must be greater than 0." ∧
    generate_handler (some a) (some c) rate run1 =
      generate_handler (some a) (some c) rate run2 := by
  constructor <;> simp [generate_handler, if_pos hrate]

/-- Witness for C7 at rate 0. -/
theorem rate_guard_before_read_witness :
    generate_handler (some ()) (some ()) 0 (fun _ _ _ => ()) =
      .error "Rate per KM must be greater than 0." :=
  (rate_guard_before_read () () 0 (fun _ _ _ => ()) (fun _ _ _ => ()) (by decide)).1

/-- `List.find?` returns the element at the first index whose predicate
holds. -/
theorem find?_eq_of_first {p : String → Bool} (l : List String) :
    ∀ (i : ℕ) (h : i < l.length), p (l.get ⟨i, h⟩) = true →
      (∀ c ∈ l.take i, p c = false) → l.find? p = some (l.get ⟨i, h⟩) := by
  induction l with
  | nil => intro i h; simp at h
  | cons a rest ih =>
    intro i h hp hbefore
    cases i with
    | zero => exact List.find?_cons_of_pos _ hp
    | succ i =>
      have hc : p a = false := hbefore a (by simp)
      rw [List.find?_cons_of_neg _ (by simp [hc])]
      exact ih i (by simpa using h) hp
        (fun x hx => hbefore x (by simp [List.take_succ_cons]; exact Or.inr hx))

/-- C9: the fault-duration column of dataset C is the first header containing
both "fault" and "duration" (case-insensitively); with no matching header it
is the 14th column by position when at least 14 columns exist, and otherwise
the run fails with the `ValueError`. -/
theorem fault_duration_column_selection (cols : List String) :
    (∀ (i : ℕ) (h : i < cols.length),
        header_is_fault_duration (cols.get ⟨i, h⟩) = true →
        (∀ c ∈ cols.take i, header_is_fault_duration c = false) →
        detect_fault_duration_column cols = .ok (cols.get ⟨i, h⟩)) ∧
    ((∀ c ∈ cols, header_is_fault_duration c = false) →
      ∀ h : 14 ≤ cols.length,
        detect_fault_duration_column cols = .ok (cols.get ⟨13, by omega⟩)) ∧
    ((∀ c ∈ cols, header_is_fault_duration c = false) → cols.length < 14 →
      detect_fault_duration_column cols = .error "Fault Duration column not found.") := by
  refine ⟨?_, ?_, ?_⟩
  · intro i h hp hb
    have hf := find?_eq_of_first cols i h hp hb
    unfold detect_fault_duration_column
    rw [hf]
  · intro hall h
    have hf : cols.find? header_is_fault_duration = none :=
      List.find?_eq_none.mpr (fun x hx => by simp [hall x hx])
    unfold detect_fault_duration_column
    rw [hf, dif_pos h]
  · intro hall hlt
    have hf : cols.find? header_is_fault_duration = none :=
      List.find?_eq_none.mpr (fun x hx => by simp [hall x hx])
    unfold detect_fault_duration_column
    rw [hf, dif_neg (by omega)]

/-- Witness for C9: the keyword column wins at index 1. -/
theorem fault_duration_column_selection_witness :
    detect_fault_duration_column ["Sr", "Fault Duration (Hrs)"] =
      .ok "Fault Duration (Hrs)" :=
  (fault_duration_column_selection ["Sr", "Fault Duration (Hrs)"]).1 1
    (by decide) (by decide) (by decide)

/-- C10: the colon pattern of the duration parser accepts 1–4 digits, a
colon and exactly two digits (optionally another colon and two digits)
without validating that minutes or seconds are below 60: every two-digit
minute value `m < 100` is accepted as `1:mm`, `"1:99"` parses to
`1 + 99/60 = 2.65` hours (a positive duration, not an invalid row),
four-digit hour fields and a seconds group are accepted likewise, while
`"1:9"` (one minute digit) and `"12345:00"` (five hour digits) fail the
pattern and the float fallback, yielding an invalid duration. -/
theorem colon_pattern_no_minute_validation :
    (∀ m : ℕ, m < 100 →
        colonMatchChars ('1' :: ':' :: twoDigitChars m) = some (1, m, 0)) ∧
    parse_duration_to_hours "1:99" = some (53/20) ∧
    (53/20 : ℚ) = 1 + 99/60 ∧ (0 : ℚ) < 53/20 ∧
    parse_duration_to_hours "1234:56" = some (1234 + 56/60) ∧
    parse_duration_to_hours "12:34:99" = some (12 + 34/60 + 99/3600) ∧
    parse_duration_to_hours "1:9" = none ∧
    parse_duration_to_hours "12345:00" = none := by
  refine ⟨by decide, ?_, by norm_num, by norm_num, ?_, ?_, by decide, by decide⟩
  · rw [show parse_duration_to_hours "1:99" =
        some (((1:ℕ):ℚ) + ((99:ℕ):ℚ)/60 + ((0:ℕ):ℚ)/3600) from rfl]
    norm_num
  · rw [show parse_duration_to_hours "1234:56" =
        some (((1234:ℕ):ℚ) + ((56:ℕ):ℚ)/60 + ((0:ℕ):ℚ)/3600) from rfl]
    norm_num
  · rw [show parse_duration_to_hours "12:34:99" =
        some (((12:ℕ):ℚ) + ((34:ℕ):ℚ)/60 + ((99:ℕ):ℚ)/3600) from rfl]
    norm_num

/-- Witness for C10 at the oversized minute value 99. -/
theorem colon_pattern_no_minute_validation_witness :
    colonMatchChars ('1' :: ':' :: twoDigitChars 99) = some (1, 99, 0) :=
  colon_pattern_no_minute_validation.1 99 (by decide)

/-- C2 (amended): the MTTR net-after-cap never exceeds the computed cap
`round2(25% × total_basic_sla)` — which itself can exceed the exact 25% of
the total basic SLA value by at most half a cent — and whenever the
uncapped net total is at most that cap, the net-after-cap is exactly the
uncapped total rounded to two decimals. -/
theorem mttr_cap_bounds (sla_charges : List ℚ) (mttr_net : ℚ) :
    (mttr_cap_step sla_charges mttr_net).net_after_cap ≤
      (mttr_cap_step sla_charges mttr_net).mttr_cap25 ∧
    (mttr_cap_step sla_charges mttr_net).mttr_cap25 ≤
      25/100 * (mttr_cap_step sla_charges mttr_net).total_basic_sla + 1/200 ∧
    (mttr_net ≤ (mttr_cap_step sla_charges mttr_net).mttr_cap25 →
      (mttr_cap_step sla_charges mttr_net).net_after_cap = round2 mttr_net) := by
  simp only [mttr_cap_step]
  split_ifs with hcap
  · refine ⟨le_refl _, ?_, fun hle => absurd hle (by simpa using hcap.not_le)⟩
    have hb := round2_le_add_half_cent (round2 sla_charges.sum * (25/100))
    dsimp only
    linarith
  · push_neg at hcap
    refine ⟨?_, ?_, fun _ => rfl⟩
    · dsimp only
      calc round2 mttr_net ≤ round2 (round2 (round2 sla_charges.sum * (25/100))) :=
            round2_mono hcap
        _ = round2 (round2 sla_charges.sum * (25/100)) := round2_idem _
    · have hb := round2_le_add_half_cent (round2 sla_charges.sum * (25/100))
      dsimp only
      linarith

/-- C2 counterexample: a run with a single route whose SLA charge is 0.03
and an uncapped MTTR net of 500 (one 5-hour fault).  The cap rounds
0.25 × 0.03 = 0.0075 up to 0.01, so the capped net (0.01) strictly exceeds
25% of the total basic SLA value (0.0075) — the claim's bound fails. -/
theorem mttr_cap_exceeds_quarter_cex :
    25/100 * (mttr_cap_step [3/100] 500).total_basic_sla <
      (mttr_cap_step [3/100] 500).net_after_cap ∧
    25/100 * ([(3:ℚ)/100].sum) < (mttr_cap_step [3/100] 500).net_after_cap := by
  have hsum : ([(3:ℚ)/100].sum) = 3/100 := by simp
  have htot : round2 (3/100 : ℚ) = 3/100 := round2_eq_self ⟨3, by norm_num⟩
  have hcap : round2 ((3/100 : ℚ) * (25/100)) = 1/100 := by
    unfold round2
    rw [roundQ_eq, round_eq]
    norm_num
  simp only [mttr_cap_step, hsum, htot, hcap]
  rw [if_pos (by norm_num : (1/100 : ℚ) < 500)]
  norm_num

/-- Witness for C2 with an uncapped total below the cap. -/
theorem mttr_cap_bounds_witness :
    (mttr_cap_step [1] 0).net_after_cap = round2 0 := by
  have h2 : (mttr_cap_step [1] 0).mttr_cap25 =
      round2 (round2 ([(1:ℚ)].sum) * (25/100)) := by
    simp only [mttr_cap_step]
    split_ifs <;> rfl
  apply (mttr_cap_bounds [1] 0).2.2
  rw [h2]
  exact round2_nonneg (mul_nonneg (round2_nonneg (by simp)) (by norm_num))

/-- C4: the adopted penalty is the max of the system SLA penalty and the
field-unit penalty (never their sum), and the final SLA recovery is
`max(adopted − vendor_deducted, 0)`, hence never negative (exact equality
on two-decimal currency amounts, which all three inputs are). -/
theorem higher_of_and_recovery (s f v : ℚ) :
    (higher_of_step s f v).1 = max s f ∧
    0 ≤ (higher_of_step s f v).2 ∧
    ((∃ n : ℤ, s = n / 100) → (∃ n : ℤ, f = n / 100) → (∃ n : ℤ, v = n / 100) →
      (higher_of_step s f v).2 = max (max s f - v) 0) := by
  refine ⟨rfl, round2_nonneg (le_max_right _ _), ?_⟩
  rintro ⟨a, rfl⟩ ⟨b, rfl⟩ ⟨c, rfl⟩
  show round2 (max (max ((a:ℚ)/100) ((b:ℚ)/100) - (c:ℚ)/100) 0) = _
  apply round2_eq_self
  refine ⟨max (max a b - c) 0, ?_⟩
  rw [max_div_div_right (by norm_num : (0:ℚ) ≤ 100), ← sub_div,
    show (0:ℚ) = 0 / 100 by norm_num, max_div_div_right (by norm_num : (0:ℚ) ≤ 100)]
  push_cast
  norm_num

/-- Witness for C4 on two-decimal currency inputs. -/
theorem higher_of_and_recovery_witness :
    (higher_of_step 5 (7/100) (3/100)).2 = max (max 5 (7/100) - 3/100) 0 :=
  (higher_of_and_recovery 5 (7/100) (3/100)).2.2
    ⟨500, by norm_num⟩ ⟨7, by norm_num⟩ ⟨3, by norm_num⟩

/-! ## Association-list lookup lemmas -/

theorem lookup_of_mem_nodupKeys {ps : List (String × String)}
    (hnd : (ps.map Prod.fst).Nodup) {k v : String} (hmem : (k, v) ∈ ps) :
    ps.lookup k = some v := by
  induction ps with
  | nil => simp at hmem
  | cons p rest ih =>
    obtain ⟨p1, p2⟩ := p
    rw [List.map_cons, List.nodup_cons] at hnd
    rcases List.mem_cons.mp hmem with heq | hmem'
    · cases heq
      simp [List.lookup]
    · have hkne : (k == p1) = false := by
        refine beq_eq_false_iff_ne.mpr (fun hkp => ?_)
        exact hnd.1 (hkp ▸ List.mem_map.mpr ⟨(k, v), hmem', rfl⟩)
      simp only [List.lookup, hkne]
      exact ih hnd.2 hmem'

theorem mem_of_lookup_eq_some {ps : List (String × String)} {k v : String}
    (h : ps.lookup k = some v) : (k, v) ∈ ps := by
  induction ps with
  | nil => simp [List.lookup] at h
  | cons p rest ih =>
    obtain ⟨p1, p2⟩ := p
    by_cases hk : k = p1
    · subst hk
      simp [List.lookup] at h
      rw [← h]
      exact List.mem_cons_self _ _
    · have hf : (k == p1) = false := beq_eq_false_iff_ne.mpr hk
      simp only [List.lookup, hf] at h
      exact List.mem_cons_of_mem _ (ih h)

theorem lookup_isSome_of_mem {ps : List (String × String)} {k v : String}
    (hmem : (k, v) ∈ ps) : ∃ w, ps.lookup k = some w := by
  induction ps with
  | nil => simp at hmem
  | cons p rest ih =>
    obtain ⟨p1, p2⟩ := p
    by_cases hk : k = p1
    · subst hk
      exact ⟨p2, by simp [List.lookup]⟩
    · have hf : (k == p1) = false := beq_eq_false_iff_ne.mpr hk
      rcases List.mem_cons.mp hmem with heq | hmem'
      · cases heq
        exact absurd rfl hk
      · obtain ⟨w, hw⟩ := ih hmem'
        exact ⟨w, by simp [List.lookup, hf, hw]⟩

theorem dictLookup_of_mem_nodupKeys {ps : List (String × String)}
    (hnd : (ps.map Prod.fst).Nodup) {k v : String} (hmem : (k, v) ∈ ps) :
    dictLookup ps k = some v := by
  unfold dictLookup
  apply lookup_of_mem_nodupKeys ?_ (List.mem_reverse.mpr hmem)
  rw [List.map_reverse]
  exact List.nodup_reverse.mpr hnd

theorem dictLookup_mem {ps : List (String × String)} {k v : String}
    (h : dictLookup ps k = some v) : (k, v) ∈ ps :=
  List.mem_reverse.mp (mem_of_lookup_eq_some h)

theorem dictLookup_isSome_of_mem {ps : List (String × String)} {k v : String}
    (hmem : (k, v) ∈ ps) : ∃ w, dictLookup ps k = some w :=
  lookup_isSome_of_mem (List.mem_reverse.mpr hmem)

/-- C5: resolution order for a valid fault row — id match first (name
ignored), then normalized-name match, else the raw id is kept as a
synthetic id under which the row stays in the (groupby) aggregates and is
flagged "YES" in the Route-Missing-in-A report. -/
theorem route_resolution_order (reg : Registry) (f : FaultRow) (fs : List FaultRow)
    (hmem : f ∈ fs) :
    (f.route_id_raw ∈ reg.route_ids → resolveRouteId reg f = f.route_id_raw) ∧
    (f.route_id_raw ∉ reg.route_ids →
      ∀ i, dictLookup reg.name_to_id f.route_name_norm = some i →
        resolveRouteId reg f = i) ∧
    (f.route_id_raw ∉ reg.route_ids →
      dictLookup reg.name_to_id f.route_name_norm = none →
        resolveRouteId reg f = f.route_id_raw ∧
        f ∈ downtimeGroup reg fs (resolveRouteId reg f) ∧
        route_missing_in_A reg (resolveRouteId reg f) = "YES") := by
  refine ⟨?_, ?_, ?_⟩
  · intro hin
    simp [resolveRouteId, hin]
  · intro hout i hl
    simp [resolveRouteId, hout, hl, Option.orElse]
  · intro hout hnone
    have h1 : resolveRouteId reg f = f.route_id_raw := by
      simp [resolveRouteId, hout, hnone, Option.orElse]
    refine ⟨h1, ?_, ?_⟩
    · exact List.mem_filter.mpr ⟨hmem, by simp⟩
    · rw [h1, route_missing_in_A, if_neg hout]

/-- Witness for C5 in the unresolved branch. -/
theorem route_resolution_order_witness :
    resolveRouteId ⟨["R1"], [("alpha", "R1")]⟩ ⟨"R9", "zeta", 2⟩ = "R9" ∧
    route_missing_in_A ⟨["R1"], [("alpha", "R1")]⟩
      (resolveRouteId ⟨["R1"], [("alpha", "R1")]⟩ ⟨"R9", "zeta", 2⟩) = "YES" := by
  have h := (route_resolution_order ⟨["R1"], [("alpha", "R1")]⟩ ⟨"R9", "zeta", 2⟩
      [⟨"R9", "zeta", 2⟩] (by simp)).2.2 (by decide) (by decide)
  exact ⟨h.1, h.2.2⟩

/-- C8 counterexample: the registry performs no deduplication, so a dataset A
whose rows carry the same canonical route id yields two `Route`s sharing
id "R1" — route ids are not unique for every run. -/
theorem route_ids_not_unique_cex :
    ¬ (((buildRoutes [⟨"R1", "Alpha"⟩, ⟨"R1", "Beta"⟩]).map Route.id).Nodup) := by
  decide

/-- C8 (amended): when the canonicalized ids of dataset A's rows are pairwise
distinct (the registry itself neither checks nor deduplicates), every built
`Route` has a unique id, `id_to_name` maps each route's id to its name, and
`name_to_id` is sound and total over the route list. -/
theorem registry_maps_consistent (rows : List ARow)
    (hnd : (rows.map (fun r => canonRouteId r.route_id_cell)).Nodup) :
    ((buildRoutes rows).map Route.id).Nodup ∧
    (∀ r ∈ buildRoutes rows, dictLookup (idToNamePairs rows) r.id = some r.name) ∧
    (∀ n i, dictLookup (nameToIdPairs rows) n = some i →
      ∃ r ∈ buildRoutes rows, r.name_norm = n ∧ r.id = i) ∧
    (∀ r ∈ buildRoutes rows, ∃ i, dictLookup (nameToIdPairs rows) r.name_norm = some i) := by
  have hids : (buildRoutes rows).map Route.id =
      rows.map (fun r => canonRouteId r.route_id_cell) := by
    unfold buildRoutes
    rw [List.map_map]
    rfl
  have hnd' : ((buildRoutes rows).map Route.id).Nodup := hids ▸ hnd
  refine ⟨hnd', ?_, ?_, ?_⟩
  · intro r hr
    apply dictLookup_of_mem_nodupKeys
    · have : (idToNamePairs rows).map Prod.fst = (buildRoutes rows).map Route.id := by
        unfold idToNamePairs
        rw [List.map_map]
        rfl
      rw [this]
      exact hnd'
    · exact List.mem_map.mpr ⟨r, hr, rfl⟩
  · intro n i h
    have hmem := dictLookup_mem h
    obtain ⟨r, hr, hri⟩ := List.mem_map.mp hmem
    exact ⟨r, hr, congrArg Prod.fst hri, congrArg Prod.snd hri⟩
  · intro r hr
    exact dictLookup_isSome_of_mem (List.mem_map.mpr ⟨r, hr, rfl⟩)

/-- Witness for C8 on a duplicate-free dataset A. -/
theorem registry_maps_consistent_witness :
    ((buildRoutes [⟨"R1", "Alpha"⟩, ⟨"R2", "Beta"⟩]).map Route.id).Nodup :=
  (registry_maps_consistent [⟨"R1", "Alpha"⟩, ⟨"R2", "Beta"⟩] (by decide)).1

end SlaBillChecker